import Mathlib

/-!
Verification of the djangoat template-tag helpers
(`djangoat/templatetags/djangoat.py`): the `pager` widget computation,
`partition`, and `seconds_to_units`, shallowly embedded in Lean.
-/

namespace Djangoat

/-- Python `math.ceil(a / b)` on exact integer arithmetic, for `b > 0`
(Python's true division followed by `math.ceil`): `⌈a/b⌉ = -⌊-a/b⌋`. -/
def mathCeilDiv (a b : Int) : Int := -((-a).fdiv b)

/-- Python `range(a, b)` over integers: `[a, a+1, ..., b-1]`, empty when `b ≤ a`. -/
def intRange (a b : Int) : List Int :=
  (List.range (b - a).toNat).map (fun (k : Nat) => a + (k : Int))

/-- Python slice `xs[s:e]` for non-negative integer indices `s`, `e`
(the pager only ever slices with non-negative indices). -/
def pySlice {α : Type} (xs : List α) (s e : Int) : List α :=
  (xs.drop s.toNat).take (e - s).toNat

/-- One entry of the pager widget: the rendered anchors/markers appended to `w`
in the source.  `page n isCurrent` stands for a numbered page link
(`class="active"` exactly when `isCurrent`). -/
inductive LinkEntry : Type where
  | prev : LinkEntry
  | next : LinkEntry
  | ellipsis : LinkEntry
  | page (n : Int) (isCurrent : Bool) : LinkEntry
deriving DecidableEq, Repr

/-- The record of values the `pager` tag injects into the template context
(minus the sliced queryset, modelled separately by `pagerQueryset`). -/
structure PagerResult : Type where
  start : Int
  stop : Int
  total : Int
  totalPages : Int
  links : List LinkEntry
deriving DecidableEq, Repr

/-- The arithmetic/link-assembly core of the `pager` tag (source lines 374–408),
after the current page `p` has been read and coerced: `t` is `queryset.count()`,
`ipp` is `items_per_page`, `pm` is `plus_or_minus`.  Follows the source's
sequential appends to `w` exactly. -/
def pagerCore (t ipp p pm : Int) : PagerResult :=
  let pt := mathCeilDiv t ipp
  let ps := (p - 1) * ipp
  let pe0 := p * ipp
  let pe := if pe0 > t then t else pe0
  let w : List LinkEntry := []
  let w := if p > 1 then w ++ [LinkEntry.prev] else w
  let rl := p - pm
  let ru := p + pm
  let w := if rl > 1 then
      (let w := w ++ [LinkEntry.page 1 false]
       if rl > 2 then w ++ [LinkEntry.ellipsis] else w)
    else w
  let w := w ++ (intRange (if rl < 0 then 1 else rl)
      ((if ru > pt then pt else ru) + 1)).map (fun i => LinkEntry.page i (i == p))
  let w := if ru < pt - 1 then w ++ [LinkEntry.ellipsis] else w
  let w := if ru < pt then w ++ [LinkEntry.page pt false] else w
  let w := if pt ≠ 0 ∧ p ≠ pt then w ++ [LinkEntry.next] else w
  { start := ps + 1, stop := pe, total := t, totalPages := pt, links := w }

/-- The sliced queryset `queryset[ps:pe]` the pager puts in context. -/
def pagerQueryset {α : Type} (items : List α) (t ipp p : Int) : List α :=
  let ps := (p - 1) * ipp
  let pe0 := p * ipp
  let pe := if pe0 > t then t else pe0
  pySlice items ps pe

/-- The windowed page links of the pager: the `for i in range(...)` loop of the
source (line 391–392), one numbered link per loop index, flagged current
exactly when the index equals the current page. -/
def pagerWindow (t ipp p pm : Int) : List LinkEntry :=
  (intRange (if p - pm < 0 then 1 else p - pm)
      ((if mathCeilDiv t ipp < p + pm then mathCeilDiv t ipp else p + pm) + 1)).map
    (fun i => LinkEntry.page i (i == p))

/-- The coercion of the raw `page` query parameter (source lines 368–373):
`raw` is the outcome of `int(request.GET.get(q, 1))` — `none` when the
conversion raised — and any parse failure or value below 1 becomes page 1. -/
def getPageParam (raw : Option Int) : Int :=
  let p := match raw with
    | some v => v
    | none => 1
  if p < 1 then 1 else p

/-- The pager tag as a fallible computation: the only uncaught exception a
numeric run can raise is the `ZeroDivisionError` from
`math.ceil(t / items_per_page)` when `items_per_page = 0`; the page-parameter
conversion error is caught by the `try/except`. -/
def pagerTag (raw : Option Int) (t ipp pm : Int) : Except String PagerResult :=
  if ipp = 0 then Except.error ("ZeroDivisionError")
  else Except.ok (pagerCore t ipp (getPageParam raw) pm)

/-- Holds exactly on a numbered page link rendered with `class="active"`. -/
def isCurrentLink : LinkEntry → Bool
  | LinkEntry.page _ true => true
  | _ => false

/-- Python `math.ceil(a / b)` on naturals for `b ≥ 1`: `(a + b - 1) / b`. -/
def ceilDivNat (a b : Nat) : Nat := (a + b - 1) / b

/-- Python slice `xs[s:e]` for natural indices. -/
def pySliceNat {α : Type} (xs : List α) (s e : Nat) : List α :=
  (xs.drop s).take (e - s)

/-- The `while groups > 1` loop of `partition` (source lines 99–104), with the
remaining loop count as fuel: at each step the next chunk is
`items[s : s + ceil((len - s) / groups)]`; when fewer than two groups remain,
the final `r.append(items[s:])`.  (`s ≤ items.length` throughout, so the
natural subtraction `items.length - s` agrees with Python's `ll - s`.) -/
def partitionGo {α : Type} (items : List α) : Nat → Nat → List (List α)
  | s, g + 2 =>
      let e := s + ceilDivNat (items.length - s) (g + 2)
      pySliceNat items s e :: partitionGo items e (g + 1)
  | s, _ => [items.drop s]

/-- The `partition` filter (source lines 68–105): a front-weighted list of
`groups` lists.  For `groups ≤ 1` (including any negative int) the loop body
never runs and the result is the single chunk `[items]`. -/
def partition {α : Type} (items : List α) (groups : Int) : List (List α) :=
  partitionGo items 0 groups.toNat

/-- The dict returned by `seconds_to_units`. -/
structure TimeUnits : Type where
  days : Int
  hours : Int
  minutes : Int
  seconds : Int
deriving DecidableEq, Repr

/-- The `seconds_to_units` filter (source lines 109–139).  `int(x / 60)` on a
non-negative exact quotient is truncating division, modelled by `Int.tdiv`. -/
def seconds_to_units (seconds : Int) : TimeUnits :=
  if seconds > 59 then
    let m := seconds.tdiv 60
    let seconds := seconds - m * 60
    if m > 59 then
      let h := m.tdiv 60
      let m := m - h * 60
      if h > 23 then
        let d := h.tdiv 24
        let h := h - d * 24
        { days := d, hours := h, minutes := m, seconds := seconds }
      else
        { days := 0, hours := h, minutes := m, seconds := seconds }
    else
      { days := 0, hours := 0, minutes := m, seconds := seconds }
  else
    { days := 0, hours := 0, minutes := 0, seconds := seconds }

/-! ### Helper lemmas -/

theorem mem_intRange {a b i : Int} : i ∈ intRange a b ↔ a ≤ i ∧ i < b := by
  unfold intRange
  rw [List.mem_map]
  constructor
  · rintro ⟨k, hk, rfl⟩
    rw [List.mem_range] at hk
    omega
  · rintro ⟨h1, h2⟩
    refine ⟨(i - a).toNat, ?_, ?_⟩
    · rw [List.mem_range]
      omega
    · omega

theorem intRange_eq_nil {a b : Int} : intRange a b = [] ↔ b ≤ a := by
  simp only [intRange, List.map_eq_nil_iff, List.range_eq_nil]
  omega

theorem mem_ite_singleton {α : Type} {x y : α} {c : Prop} [Decidable c] :
    x ∈ (if c then [y] else ([] : List α)) ↔ c ∧ x = y := by
  split <;> simp_all

theorem mathCeilDiv_zero (b : Int) : mathCeilDiv 0 b = 0 := by
  simp [mathCeilDiv]

theorem mathCeilDiv_bounds {a b : Int} (hb : 0 < b) :
    b * (mathCeilDiv a b - 1) < a ∧ a ≤ b * mathCeilDiv a b := by
  have h1 := Int.fmod_add_fdiv (-a) b
  have h2 := Int.fmod_nonneg' (-a) hb
  have h3 := Int.fmod_lt_of_pos (-a) hb
  unfold mathCeilDiv
  constructor <;> nlinarith [h1, h2, h3]

/-- The totalPages field of the pager result is the ceiling division. -/
theorem pagerCore_totalPages (t ipp p pm : Int) :
    (pagerCore t ipp p pm).totalPages = mathCeilDiv t ipp := rfl

/-- The widget list decomposes into its seven segments, in source order. -/
theorem pagerCore_links_eq (t ipp p pm : Int) :
    (pagerCore t ipp p pm).links =
      (if 1 < p then [LinkEntry.prev] else []) ++
      (if 1 < p - pm then [LinkEntry.page 1 false] else []) ++
      (if 2 < p - pm then [LinkEntry.ellipsis] else []) ++
      pagerWindow t ipp p pm ++
      (if p + pm < mathCeilDiv t ipp - 1 then [LinkEntry.ellipsis] else []) ++
      (if p + pm < mathCeilDiv t ipp then [LinkEntry.page (mathCeilDiv t ipp) false] else []) ++
      (if mathCeilDiv t ipp ≠ 0 ∧ p ≠ mathCeilDiv t ipp then [LinkEntry.next] else []) := by
  simp only [pagerCore, pagerWindow, gt_iff_lt]
  split_ifs
  all_goals try (exfalso; omega)
  all_goals simp only [List.append_assoc, List.nil_append, List.append_nil]

theorem ite_singleton_eq_nil {α : Type} {y : α} {c : Prop} [Decidable c] :
    (if c then [y] else ([] : List α)) = [] ↔ ¬c := by
  split <;> simp_all

theorem pagerCore_start (t ipp p pm : Int) :
    (pagerCore t ipp p pm).start = (p - 1) * ipp + 1 := rfl

theorem pagerCore_stop (t ipp p pm : Int) :
    (pagerCore t ipp p pm).stop = if p * ipp > t then t else p * ipp := rfl

theorem le_mul_ceilDivNat (a : Nat) {b : Nat} (hb : 0 < b) :
    a ≤ b * ceilDivNat a b := by
  unfold ceilDivNat
  have h1 := Nat.div_add_mod (a + b - 1) b
  have h2 := Nat.mod_lt (a + b - 1) hb
  omega

theorem ceilDivNat_le {a b k : Nat} (hb : 0 < b) (h : a ≤ b * k) :
    ceilDivNat a b ≤ k := by
  unfold ceilDivNat
  have h1 : b * ((a + b - 1) / b) ≤ a + b - 1 := Nat.mul_div_le (a + b - 1) b
  have h2 : a + b - 1 < b * (k + 1) := by
    have h3 : b * (k + 1) = b * k + b := by ring
    omega
  exact Nat.le_of_lt_succ (Nat.lt_of_mul_lt_mul_left (lt_of_le_of_lt h1 h2))

theorem ceilDivNat_le_self (a : Nat) {b : Nat} (hb : 0 < b) :
    ceilDivNat a b ≤ a :=
  ceilDivNat_le hb (Nat.le_mul_of_pos_left a hb)

theorem pySliceNat_length {α : Type} (xs : List α) (s e : Nat) :
    (pySliceNat xs s e).length = min (e - s) (xs.length - s) := by
  simp [pySliceNat]

/-- First chunk size of the remaining `partition` loop, as a function of the
cursor `s` and the remaining group count. -/
def firstChunkLen {α : Type} (items : List α) (s : Nat) : Nat → Nat
  | g + 2 => ceilDivNat (items.length - s) (g + 2)
  | _ => items.length - s

theorem partitionGo_length {α : Type} (items : List α) :
    ∀ g s, (partitionGo items s g).length = max 1 g := by
  intro g
  induction g using Nat.strong_induction_on with
  | _ g ih =>
    intro s
    match g with
    | 0 => simp [partitionGo]
    | 1 => simp [partitionGo]
    | g + 2 =>
      rw [partitionGo, List.length_cons, ih (g + 1) (by omega)]
      omega

theorem partitionGo_flatten {α : Type} (items : List α) :
    ∀ g s, (partitionGo items s g).flatten = items.drop s := by
  intro g
  induction g using Nat.strong_induction_on with
  | _ g ih =>
    intro s
    match g with
    | 0 => simp [partitionGo]
    | 1 => simp [partitionGo]
    | g + 2 =>
      rw [partitionGo]
      simp only [List.flatten_cons, ih (g + 1) (by omega)]
      unfold pySliceNat
      have h1 : items.drop (s + ceilDivNat (items.length - s) (g + 2)) =
          (items.drop s).drop (ceilDivNat (items.length - s) (g + 2)) := by
        rw [List.drop_drop]
      rw [h1]
      have h2 : s + ceilDivNat (items.length - s) (g + 2) - s =
          ceilDivNat (items.length - s) (g + 2) := by omega
      rw [h2, List.take_append_drop]

theorem partitionGo_head_length {α : Type} (items : List α) (g s : Nat)
    (_hs : s ≤ items.length) :
    ((partitionGo items s g).map List.length).head? = some (firstChunkLen items s g) := by
  match g with
  | 0 => simp [partitionGo, firstChunkLen]
  | 1 => simp [partitionGo, firstChunkLen]
  | g + 2 =>
    have hc : ceilDivNat (items.length - s) (g + 2) ≤ items.length - s :=
      ceilDivNat_le_self _ (by omega)
    rw [partitionGo]
    simp only [List.map_cons, List.head?_cons, pySliceNat_length, firstChunkLen]
    congr 1
    omega

theorem partitionGo_chain {α : Type} (items : List α) :
    ∀ g s, s ≤ items.length →
      List.Chain' (fun a b => b ≤ a) ((partitionGo items s g).map List.length) := by
  intro g
  induction g using Nat.strong_induction_on with
  | _ g ih =>
    intro s hs
    match g with
    | 0 => simp [partitionGo]
    | 1 => simp [partitionGo]
    | g + 2 =>
      have hc : ceilDivNat (items.length - s) (g + 2) ≤ items.length - s :=
        ceilDivNat_le_self _ (by omega)
      have hrem : items.length - s ≤ (g + 2) * ceilDivNat (items.length - s) (g + 2) :=
        le_mul_ceilDivNat _ (by omega)
      rw [partitionGo]
      rw [List.map_cons, List.chain'_cons']
      set c := ceilDivNat (items.length - s) (g + 2) with hcdef
      have he : s + c ≤ items.length := by omega
      constructor
      · intro y hy
        rw [partitionGo_head_length items (g + 1) (s + c) he] at hy
        simp only [Option.mem_some_iff] at hy
        subst hy
        rw [pySliceNat_length]
        have hlen : min (s + c - s) (items.length - s) = c := by omega
        rw [hlen]
        match g with
        | 0 =>
          simp only [firstChunkLen]
          have h2 : (0 + 2) * c = c + c := by ring
          omega
        | g' + 1 =>
          simp only [firstChunkLen]
          apply ceilDivNat_le (by omega)
          have h2 : (g' + 1 + 2) * c = (g' + 2) * c + c := by ring
          omega
      · exact ih (g + 1) (by omega) (s + c) he

/-! ### Claim theorems -/

/-- C1: the claim that the windowed page-links are exactly one per page in
`[max(1, currentPage − windowRadius), min(totalPages, currentPage + windowRadius)]`
fails on the code.  At totalItems = 10, pageSize = 4, currentPage = 3,
windowRadius = 3 (totalPages = 3) that interval is `[1, 3]`, but the loop's
lower clamp is `1 if rl < 0 else rl`, which yields 0 when
`currentPage = windowRadius`, so the widget also contains a link for the
nonexistent page 0. -/
theorem pager_window_page_zero_bug :
    (pagerCore 10 4 3 3).totalPages = 3 ∧
    (pagerCore 10 4 3 3).links =
      [LinkEntry.prev, LinkEntry.page 0 false, LinkEntry.page 1 false,
       LinkEntry.page 2 false, LinkEntry.page 3 true] := by
  decide

/-- C2 counterexample: with totalItems = 0 (pageSize = 20, currentPage = 2,
windowRadius = 0) the link sequence is not empty — it holds a prev link and a
page-1 link — refuting the claim that totalItems = 0 gives no links at all. -/
theorem pager_zero_items_counterexample :
    (pagerCore 0 20 2 0).totalPages = 0 ∧
    (pagerCore 0 20 2 0).links = [LinkEntry.prev, LinkEntry.page 1 false] ∧
    (pagerCore 0 20 2 0).links ≠ [] := by
  decide

/-- C2 (amended): with totalItems = 0 the pager returns totalPages = 0 and never
emits a next link; but a prev link is emitted iff currentPage > 1, and the link
sequence is empty iff currentPage = 1 and windowRadius ≠ 1 (for
currentPage − windowRadius > 1 a page-1 link and possibly an ellipsis still
appear, and for windowRadius = currentPage a spurious page-0 link appears). -/
theorem pager_zero_items (ipp p pm : Int) (_hipp : 1 ≤ ipp) (hp : 1 ≤ p)
    (hpm : 0 ≤ pm) :
    (pagerCore 0 ipp p pm).totalPages = 0 ∧
    LinkEntry.next ∉ (pagerCore 0 ipp p pm).links ∧
    (LinkEntry.prev ∈ (pagerCore 0 ipp p pm).links ↔ 1 < p) ∧
    ((pagerCore 0 ipp p pm).links = [] ↔ p = 1 ∧ pm ≠ 1) := by
  have hpt : (pagerCore 0 ipp p pm).totalPages = 0 := by
    rw [pagerCore_totalPages, mathCeilDiv_zero]
  refine ⟨hpt, ?_, ?_, ?_⟩
  · rw [pagerCore_links_eq, mathCeilDiv_zero]
    simp only [List.mem_append, mem_ite_singleton, pagerWindow, List.mem_map,
      mathCeilDiv_zero, mem_intRange]
    simp
  · rw [pagerCore_links_eq]
    simp only [List.mem_append, mem_ite_singleton, pagerWindow, List.mem_map,
      mathCeilDiv_zero, mem_intRange]
    simp
  · rw [pagerCore_links_eq, mathCeilDiv_zero]
    simp only [List.append_eq_nil, ite_singleton_eq_nil, pagerWindow,
      mathCeilDiv_zero, List.map_eq_nil_iff, intRange_eq_nil]
    constructor
    · rintro ⟨⟨⟨⟨⟨⟨h1, h2⟩, h3⟩, h4⟩, h5⟩, h6⟩, h7⟩
      split_ifs at h4 <;> omega
    · rintro ⟨rfl, hpm1⟩
      refine ⟨⟨⟨⟨⟨⟨by omega, by omega⟩, by omega⟩, ?_⟩, by omega⟩, by omega⟩, by omega⟩
      split_ifs <;> omega

/-- C3 counterexample: at totalItems = 100, pageSize = 10 (totalPages = 10),
currentPage = 200, windowRadius = 3 — so currentPage > totalPages — no entry of
the widget is flagged as the current page, refuting the claim that the
out-of-range current page is still marked. -/
theorem pager_beyond_total_counterexample :
    (pagerCore 100 10 200 3).totalPages = 10 ∧
    (pagerCore 100 10 200 3).links.filter isCurrentLink = [] ∧
    (pagerCore 100 10 200 3).links =
      [LinkEntry.prev, LinkEntry.page 1 false, LinkEntry.ellipsis, LinkEntry.next] := by
  decide

/-- C3 (amended): whenever currentPage > totalPages, no entry of the link
sequence is flagged as current — the window `[rl, min(totalPages, ru)]` cannot
reach the out-of-range current page, and the first/last page links are never
flagged. -/
theorem pager_beyond_total_no_current (t ipp p pm : Int)
    (h : (pagerCore t ipp p pm).totalPages < p) (n : Int) :
    LinkEntry.page n true ∉ (pagerCore t ipp p pm).links := by
  rw [pagerCore_totalPages] at h
  intro hmem
  rw [pagerCore_links_eq] at hmem
  simp only [List.mem_append, mem_ite_singleton, pagerWindow, List.mem_map,
    mem_intRange] at hmem
  rcases hmem with
    ((((((⟨-, h1⟩ | ⟨-, h1⟩) | ⟨-, h1⟩) | ⟨i, ⟨hge, hlt⟩, heq⟩) | ⟨-, h1⟩) |
      ⟨-, h1⟩) | ⟨-, h1⟩)
  · exact absurd h1 (by simp)
  · exact absurd h1 (by simp)
  · exact absurd h1 (by simp)
  · rw [LinkEntry.page.injEq, beq_iff_eq] at heq
    obtain ⟨hin, hip⟩ := heq
    split_ifs at hge hlt <;> omega
  · exact absurd h1 (by simp)
  · exact absurd h1 (by simp)
  · exact absurd h1 (by simp)

/-- C4: the pager computes totalPages as the ceiling of totalItems / pageSize
(characterized by `ipp⬝(pt − 1) < t ≤ ipp⬝pt`, with totalPages = 0 at
totalItems = 0), advertises start `(currentPage − 1)⬝pageSize + 1` and end
`min(currentPage⬝pageSize, totalItems)`, and when
`(currentPage − 1)⬝pageSize ≥ totalItems` the computed slice is empty (the
computation is total — no error). -/
theorem pager_arithmetic (t ipp p pm : Int) (ht : 0 ≤ t) (hipp : 1 ≤ ipp)
    (_hp : 1 ≤ p) :
    (ipp * ((pagerCore t ipp p pm).totalPages - 1) < t ∧
      t ≤ ipp * (pagerCore t ipp p pm).totalPages) ∧
    (t = 0 → (pagerCore t ipp p pm).totalPages = 0) ∧
    (pagerCore t ipp p pm).start = (p - 1) * ipp + 1 ∧
    (pagerCore t ipp p pm).stop = min (p * ipp) t ∧
    (∀ (items : List Int), (items.length : Int) = t →
      t ≤ (p - 1) * ipp → pagerQueryset items t ipp p = []) := by
  refine ⟨?_, ?_, pagerCore_start t ipp p pm, ?_, ?_⟩
  · rw [pagerCore_totalPages]
    exact mathCeilDiv_bounds (by omega)
  · rintro rfl
    rw [pagerCore_totalPages, mathCeilDiv_zero]
  · rw [pagerCore_stop, min_def]
    split_ifs <;> omega
  · intro items hlen hts
    unfold pagerQueryset pySlice
    have hdrop : items.drop ((p - 1) * ipp).toNat = [] := by
      rw [List.drop_eq_nil_iff]
      omega
    simp only [hdrop, List.take_nil]

/-- C5: a prev link is emitted iff currentPage > 1, and a next link is emitted
iff totalPages is nonzero and currentPage ≠ totalPages; in particular with
totalItems = 100, pageSize = 10 (totalPages = 10) and currentPage = 200 a next
link is present. -/
theorem pager_prev_next :
    (∀ t ipp p pm : Int,
      (LinkEntry.prev ∈ (pagerCore t ipp p pm).links ↔ 1 < p) ∧
      (LinkEntry.next ∈ (pagerCore t ipp p pm).links ↔
        (pagerCore t ipp p pm).totalPages ≠ 0 ∧
          p ≠ (pagerCore t ipp p pm).totalPages)) ∧
    LinkEntry.next ∈ (pagerCore 100 10 200 3).links := by
  constructor
  · intro t ipp p pm
    rw [pagerCore_totalPages]
    constructor <;>
      · rw [pagerCore_links_eq]
        simp only [List.mem_append, mem_ite_singleton, pagerWindow, List.mem_map]
        simp
  · decide

/-- C6: with lowerBound = currentPage − windowRadius and
upperBound = currentPage + windowRadius, the widget is: optional prev link; a
page-1 link iff lowerBound > 1; an ellipsis iff lowerBound > 2; the window; an
ellipsis iff upperBound < totalPages − 1; a last-page link iff
upperBound < totalPages; optional next link. -/
theorem pager_boundary_links (t ipp p pm : Int) :
    (pagerCore t ipp p pm).links =
      (if 1 < p then [LinkEntry.prev] else []) ++
      (if 1 < p - pm then [LinkEntry.page 1 false] else []) ++
      (if 2 < p - pm then [LinkEntry.ellipsis] else []) ++
      pagerWindow t ipp p pm ++
      (if p + pm < (pagerCore t ipp p pm).totalPages - 1 then [LinkEntry.ellipsis] else []) ++
      (if p + pm < (pagerCore t ipp p pm).totalPages then
        [LinkEntry.page ((pagerCore t ipp p pm).totalPages) false] else []) ++
      (if (pagerCore t ipp p pm).totalPages ≠ 0 ∧ p ≠ (pagerCore t ipp p pm).totalPages then
        [LinkEntry.next] else []) := by
  rw [pagerCore_totalPages]
  exact pagerCore_links_eq t ipp p pm

/-- C7: a raw page parameter that fails to parse (`none`) or parses below 1 is
coerced to page 1, and for any pageSize ≥ 1 the pager tag returns a result —
no exception escapes. -/
theorem pager_page_coercion (raw : Option Int) (t ipp pm : Int) (hipp : 1 ≤ ipp) :
    pagerTag raw t ipp pm = Except.ok (pagerCore t ipp (getPageParam raw) pm) ∧
    1 ≤ getPageParam raw ∧
    (raw = none → getPageParam raw = 1) ∧
    (∀ v : Int, raw = some v → v < 1 → getPageParam raw = 1) := by
  refine ⟨?_, ?_, ?_, ?_⟩
  · unfold pagerTag
    rw [if_neg (by omega)]
  · unfold getPageParam
    cases raw <;> simp only <;> split_ifs <;> omega
  · rintro rfl
    rfl
  · rintro v rfl hv
    unfold getPageParam
    simp only
    rw [if_pos hv]

/-- C8: the pager computation is deterministic — two invocations with equal
inputs produce equal results (it is a pure function of its inputs). -/
theorem pager_deterministic (t₁ ipp₁ p₁ pm₁ t₂ ipp₂ p₂ pm₂ : Int)
    (h₁ : t₁ = t₂) (h₂ : ipp₁ = ipp₂) (h₃ : p₁ = p₂) (h₄ : pm₁ = pm₂) :
    pagerCore t₁ ipp₁ p₁ pm₁ = pagerCore t₂ ipp₂ p₂ pm₂ := by
  subst h₁; subst h₂; subst h₃; subst h₄
  rfl

/-- C9: for groups ≥ 1, `partition` returns exactly `groups` sublists whose
in-order concatenation is the input, with non-increasing sublist lengths. -/
theorem partition_spec {α : Type} (items : List α) (groups : Int)
    (hg : 1 ≤ groups) :
    ((partition items groups).length : Int) = groups ∧
    (partition items groups).flatten = items ∧
    List.Chain' (fun a b => b ≤ a) ((partition items groups).map List.length) := by
  unfold partition
  refine ⟨?_, ?_, ?_⟩
  · rw [partitionGo_length]
    omega
  · rw [partitionGo_flatten, List.drop_zero]
  · exact partitionGo_chain items groups.toNat 0 (Nat.zero_le _)

/-- C10: for non-negative seconds, `seconds_to_units` yields
`0 ≤ hours < 24`, `0 ≤ minutes < 60`, `0 ≤ seconds < 60` (and days ≥ 0) with
`days⬝86400 + hours⬝3600 + minutes⬝60 + seconds` equal to the input. -/
theorem seconds_to_units_spec (s : Int) (hs : 0 ≤ s) :
    0 ≤ (seconds_to_units s).days ∧
    (0 ≤ (seconds_to_units s).hours ∧ (seconds_to_units s).hours < 24) ∧
    (0 ≤ (seconds_to_units s).minutes ∧ (seconds_to_units s).minutes < 60) ∧
    (0 ≤ (seconds_to_units s).seconds ∧ (seconds_to_units s).seconds < 60) ∧
    (seconds_to_units s).days * 86400 + (seconds_to_units s).hours * 3600 +
      (seconds_to_units s).minutes * 60 + (seconds_to_units s).seconds = s := by
  simp only [seconds_to_units]
  have e1 : s.tdiv 60 = s / 60 := Int.tdiv_eq_ediv (by omega) (by omega)
  have e2 : (s / 60).tdiv 60 = s / 60 / 60 := Int.tdiv_eq_ediv (by omega) (by omega)
  have e3 : (s / 60 / 60).tdiv 24 = s / 60 / 60 / 24 :=
    Int.tdiv_eq_ediv (by omega) (by omega)
  rw [e1, e2, e3]
  split_ifs <;> dsimp only <;> omega

/-! ### Witnesses -/

theorem pager_zero_items_witness :
    (pagerCore 0 20 1 0).totalPages = 0 ∧
    LinkEntry.next ∉ (pagerCore 0 20 1 0).links ∧
    (LinkEntry.prev ∈ (pagerCore 0 20 1 0).links ↔ 1 < (1 : Int)) ∧
    ((pagerCore 0 20 1 0).links = [] ↔ (1 : Int) = 1 ∧ (0 : Int) ≠ 1) :=
  pager_zero_items 20 1 0 (by decide) (by decide) (by decide)

theorem pager_beyond_total_no_current_witness :
    LinkEntry.page 5 true ∉ (pagerCore 100 10 200 3).links :=
  pager_beyond_total_no_current 100 10 200 3 (by decide) 5

theorem pager_arithmetic_witness :
    (10 * ((pagerCore 95 10 200 3).totalPages - 1) < 95 ∧
      95 ≤ 10 * (pagerCore 95 10 200 3).totalPages) ∧
    ((95 : Int) = 0 → (pagerCore 95 10 200 3).totalPages = 0) ∧
    (pagerCore 95 10 200 3).start = (200 - 1) * 10 + 1 ∧
    (pagerCore 95 10 200 3).stop = min (200 * 10) 95 ∧
    (∀ (items : List Int), (items.length : Int) = 95 →
      (95 : Int) ≤ (200 - 1) * 10 → pagerQueryset items 95 10 200 = []) :=
  pager_arithmetic 95 10 200 3 (by decide) (by decide) (by decide)

theorem pager_page_coercion_witness :
    pagerTag (some 0) 5 20 3 = Except.ok (pagerCore 5 20 (getPageParam (some 0)) 3) ∧
    getPageParam (some 0) = 1 :=
  ⟨(pager_page_coercion (some 0) 5 20 3 (by decide)).1,
   (pager_page_coercion (some 0) 5 20 3 (by decide)).2.2.2 0 rfl (by decide)⟩

theorem pager_deterministic_witness :
    pagerCore 10 4 3 3 = pagerCore 10 4 3 3 :=
  pager_deterministic 10 4 3 3 10 4 3 3 rfl rfl rfl rfl

theorem partition_spec_witness :
    ((partition ([0, 1, 2, 3, 4, 5, 6, 7, 8, 9] : List Nat) 3).length : Int) = 3 ∧
    (partition ([0, 1, 2, 3, 4, 5, 6, 7, 8, 9] : List Nat) 3).flatten =
      [0, 1, 2, 3, 4, 5, 6, 7, 8, 9] ∧
    List.Chain' (fun a b => b ≤ a)
      ((partition ([0, 1, 2, 3, 4, 5, 6, 7, 8, 9] : List Nat) 3).map List.length) :=
  partition_spec [0, 1, 2, 3, 4, 5, 6, 7, 8, 9] 3 (by decide)

theorem seconds_to_units_witness :
    0 ≤ (seconds_to_units 100000).days ∧
    (0 ≤ (seconds_to_units 100000).hours ∧ (seconds_to_units 100000).hours < 24) ∧
    (0 ≤ (seconds_to_units 100000).minutes ∧ (seconds_to_units 100000).minutes < 60) ∧
    (0 ≤ (seconds_to_units 100000).seconds ∧ (seconds_to_units 100000).seconds < 60) ∧
    (seconds_to_units 100000).days * 86400 + (seconds_to_units 100000).hours * 3600 +
      (seconds_to_units 100000).minutes * 60 + (seconds_to_units 100000).seconds = 100000 :=
  seconds_to_units_spec 100000 (by decide)

end Djangoat
